import Mathlib

/-!
Verification of the portfolio growth-projection engine of the Investment
Analyzer (`investment_analyzer.py`, function `growthProjector`).

Python floats are modelled as real numbers; the company-age value used only
for the window-selection comparison (a float computed as `days / 365.25`) is
modelled as a rational so the comparison stays decidable.  A price history is
the chronological list of closing prices of the resolved window.
-/

namespace InvestmentAnalyzer

/-- `history['Close'].iloc[0]` on a window already guarded nonempty. -/
def firstClose (hist : List ℝ) : ℝ := hist.headI

/-- `history['Close'].iloc[-1]` on a window already guarded nonempty. -/
def lastClose (hist : List ℝ) : ℝ := hist.getLastD 0

/-- `years_of_data = len(history) / 252` (line 573): observation count divided
by the assumed 252 trading observations per year. -/
noncomputable def yearsOfData (hist : List ℝ) : ℝ := (hist.length : ℝ) / 252

/-- `cagr = ((end_price / start_price) ** (1 / years_of_data)) - 1`
(line 575), with `**` modelled by the real power `Real.rpow`. -/
noncomputable def rawCagr (hist : List ℝ) : ℝ :=
  (lastClose hist / firstClose hist) ^ ((1 : ℝ) / yearsOfData hist) - 1

/-- `MAX_CAGR = 0.15` (line 578). -/
def MAX_CAGR : ℝ := 0.15

/-- `INFLATION_RATE = 0.025` (line 520). -/
def INFLATION_RATE : ℝ := 0.025

/-- Lines 579-583: `if cagr > MAX_CAGR: cagr = MAX_CAGR` (else the raw rate
is kept unchanged; there is no lower clamp). -/
noncomputable def capCagr (raw : ℝ) : ℝ :=
  if raw > MAX_CAGR then MAX_CAGR else raw

/-- Lines 553-564: the lookback window chosen from the company age
`years_since_ipo`.  Age `< 5` keeps the full history; the `< 10` branch and
the final `else` branch both request the recent five-year history. -/
def selectWindow (age : ℚ) (maxHist recent5 : List ℝ) : List ℝ :=
  if age < 5 then maxHist
  else if age < 10 then recent5
  else recent5

/-- Lines 586-590: `yearly_values = [initial_amount]` followed by appending
`initial_amount * ((1 + cagr) ** year)` for `year` in `range(1, holding_period + 1)`. -/
def yearlyValues (initial g : ℝ) (P : ℕ) : List ℝ :=
  initial :: (List.range' 1 P).map (fun year => initial * (1 + g) ^ year)

/-- Line 593: `nominal_final = yearly_values[-1]`. -/
def nominalFinal (initial g : ℝ) (P : ℕ) : ℝ :=
  (yearlyValues initial g P).getLastD 0

/-- Line 594: `real_final = nominal_final / ((1 + INFLATION_RATE) ** holding_period)`. -/
noncomputable def realFinal (initial g : ℝ) (P : ℕ) : ℝ :=
  nominalFinal initial g P / (1 + INFLATION_RATE) ^ P

/-- The per-security dictionary stored at lines 602-609. -/
structure ProjRecord where
  ticker : String
  initial : ℝ
  cagr : ℝ
  yearly_values : List ℝ
  nominal_final : ℝ
  real_final : ℝ

/-- Construction of one projection record (lines 586-609) from the ticker,
the initial amount, the (already capped) growth rate and the holding period. -/
noncomputable def mkProjection (t : String) (initial g : ℝ) (P : ℕ) : ProjRecord :=
  ⟨t, initial, g, yearlyValues initial g P, nominalFinal initial g P, realFinal initial g P⟩

/-- Line 629: `total_initial = sum(proj['initial'] for proj in stock_projections)`. -/
def totalInitial (recs : List ProjRecord) : ℝ :=
  (recs.map ProjRecord.initial).sum

/-- Line 630: `total_nominal = sum(proj['nominal_final'] ...)`. -/
def totalNominal (recs : List ProjRecord) : ℝ :=
  (recs.map ProjRecord.nominal_final).sum

/-- Line 631: `total_real = sum(proj['real_final'] ...)`. -/
def totalReal (recs : List ProjRecord) : ℝ :=
  (recs.map ProjRecord.real_final).sum

/-- Line 634: `portfolio_cagr = ((total_nominal / total_initial) ** (1 / holding_period)) - 1`. -/
noncomputable def portfolioCagr (recs : List ProjRecord) (P : ℕ) : ℝ :=
  (totalNominal recs / totalInitial recs) ^ ((1 : ℝ) / (P : ℝ)) - 1

/-- Line 637: `average_stock_cagr = sum(proj['cagr'] ...) / len(stock_projections)`. -/
noncomputable def averageStockCagr (recs : List ProjRecord) : ℝ :=
  (recs.map ProjRecord.cagr).sum / (recs.length : ℝ)

/-- Lines 652-657: `total_yearly_values = [0] * (holding_period + 1)` then a
per-record elementwise accumulation `total_yearly_values[i] += value`. -/
def totalYearlyValues (recs : List ProjRecord) (P : ℕ) : List ℝ :=
  recs.foldl (fun acc r => acc.zipWith (fun a b => a + b) r.yearly_values)
    (List.replicate (P + 1) 0)

/-- The aggregate figures printed and charted in the summary step
(lines 629-657). -/
structure PortfolioSummary where
  total_initial : ℝ
  total_nominal : ℝ
  total_real : ℝ
  portfolio_cagr : ℝ
  average_stock_cagr : ℝ
  total_yearly_values : List ℝ

/-- Assembly of the summary from the surviving records. -/
noncomputable def mkSummary (recs : List ProjRecord) (P : ℕ) : PortfolioSummary :=
  ⟨totalInitial recs, totalNominal recs, totalReal recs, portfolioCagr recs P,
   averageStockCagr recs, totalYearlyValues recs P⟩

/-- One iteration of the per-security loop (lines 524-617) on an input
`(ticker, initial_amount, resolved window)`: a window with fewer than two
points is skipped with exactly one warning (lines 566-568, subsuming the
empty-history warning of lines 540-542); otherwise a projection record is
built from the capped CAGR.  The `pd.isna` guard of lines 597-599 never
fires over the reals, where every value is finite. -/
noncomputable def projStep (P : ℕ) (x : String × ℝ × List ℝ)
    (acc : List ProjRecord × List String) : List ProjRecord × List String :=
  if x.2.2.length < 2 then
    (acc.1, ("Warning: Insufficient historical data for " ++ x.1 ++ ". Skipping.") :: acc.2)
  else
    (mkProjection x.1 x.2.1 (capCagr (rawCagr x.2.2)) P :: acc.1, acc.2)

/-- The whole per-security loop: records and warnings in input order. -/
noncomputable def projectAll (P : ℕ) (inputs : List (String × ℝ × List ℝ)) :
    List ProjRecord × List String :=
  inputs.foldr (projStep P) ([], [])

/-- Lines 619-657: if no projection record survived the run fails with the
no-valid-projections error and no summary is produced (lines 620-622);
otherwise the summary is computed from the surviving records. -/
noncomputable def runProjector (P : ℕ) (inputs : List (String × ℝ × List ℝ)) :
    Except String (List ProjRecord × PortfolioSummary) :=
  match (projectAll P inputs).1 with
  | [] => Except.error "No valid stock data could be retrieved"
  | r :: rs => Except.ok (r :: rs, mkSummary (r :: rs) P)

/-! ### Helper lemmas -/

lemma yearlyValues_length (i g : ℝ) (P : ℕ) : (yearlyValues i g P).length = P + 1 := by
  simp [yearlyValues]

lemma yearlyValues_getD (i g : ℝ) (P k : ℕ) (hk : k ≤ P) :
    (yearlyValues i g P).getD k 0 = i * (1 + g) ^ k := by
  cases k with
  | zero => simp [yearlyValues]
  | succ k =>
    have hk' : k < P := by omega
    simp only [yearlyValues, List.getD_cons_succ, List.getD_eq_getElem?_getD,
      List.getElem?_map]
    rw [List.getElem?_eq_getElem (by simpa using hk')]
    simp [List.getElem_range', Nat.add_comm]

lemma getLastD_eq_getD_of_length (l : List ℝ) (n : ℕ) (h : l.length = n + 1) :
    l.getLastD 0 = l.getD n 0 := by
  simp [List.getLastD_eq_getLast?, List.getLast?_eq_getElem?, List.getD_eq_getElem?_getD, h]

lemma nominalFinal_eq (i g : ℝ) (P : ℕ) : nominalFinal i g P = i * (1 + g) ^ P := by
  rw [nominalFinal, getLastD_eq_getD_of_length _ P (yearlyValues_length i g P),
    yearlyValues_getD i g P P le_rfl]

/-! ### Claims -/

/-- C1: for every resolved price history with at least two points (and positive
endpoint prices), the computed growth rate equals
`(last_close / first_close) ** (1 / elapsed_years) - 1` where `elapsed_years`
is the observation count divided by 252; it is a single-window geometric
estimate: compounding `1 + rate` over `elapsed_years` reproduces the window's
total price ratio (so it is not an average of year-over-year returns). -/
theorem rawCagr_geometric_estimate (hist : List ℝ) (hlen : 2 ≤ hist.length) :
    rawCagr hist
      = (lastClose hist / firstClose hist) ^ ((1 : ℝ) / ((hist.length : ℝ) / 252)) - 1 ∧
    (0 < firstClose hist → 0 < lastClose hist →
      (1 + rawCagr hist) ^ yearsOfData hist = lastClose hist / firstClose hist) := by
  have hy : 0 < yearsOfData hist := by
    have h2 : (0 : ℝ) < (hist.length : ℝ) := by
      have : 0 < hist.length := by omega
      exact_mod_cast this
    unfold yearsOfData
    positivity
  constructor
  · rfl
  · intro hfirst hlast
    have hr : 0 < lastClose hist / firstClose hist := div_pos hlast hfirst
    have h1 : 1 + rawCagr hist
        = (lastClose hist / firstClose hist) ^ ((1 : ℝ) / yearsOfData hist) := by
      unfold rawCagr; ring
    rw [h1, ← Real.rpow_mul (le_of_lt hr), one_div_mul_cancel (ne_of_gt hy), Real.rpow_one]

/-- C1 witness: the history `[1, 2]`. -/
theorem rawCagr_geometric_estimate_witness :
    rawCagr [1, 2]
      = (lastClose [1, 2] / firstClose [1, 2])
          ^ ((1 : ℝ) / ((([1, 2] : List ℝ).length : ℝ) / 252)) - 1 ∧
    (0 < firstClose [1, 2] → 0 < lastClose [1, 2] →
      (1 + rawCagr [1, 2]) ^ yearsOfData [1, 2] = lastClose [1, 2] / firstClose [1, 2]) :=
  rawCagr_geometric_estimate [1, 2] (by simp)

/-- C2: the 0.15 cap never returns a value above 0.15, leaves any raw rate
already at most 0.15 (hence every negative rate) unchanged, and never raises
a rate — declines are never floored. -/
theorem capCagr_policy (raw : ℝ) :
    capCagr raw ≤ 0.15 ∧ (raw ≤ 0.15 → capCagr raw = raw) ∧ capCagr raw ≤ raw := by
  unfold capCagr MAX_CAGR
  split_ifs with h
  · exact ⟨le_refl _, fun h2 => by linarith, le_of_lt h⟩
  · push_neg at h
    exact ⟨h, fun _ => rfl, le_refl _⟩

/-- C2 witness: a raw rate of 1/10 (below the cap) passes through unchanged. -/
theorem capCagr_policy_witness : capCagr (1 / 10) = 1 / 10 :=
  (capCagr_policy (1 / 10)).2.1 (by norm_num)

/-- C3: the lookback window depends only on the age tier: below five years the
full history is used; both upper tiers — five to ten years and ten or more —
resolve to the recent five-year window, so every age of at least five years
yields the same window. -/
theorem selectWindow_policy (age : ℚ) (maxHist recent5 : List ℝ) :
    (age < 5 → selectWindow age maxHist recent5 = maxHist) ∧
    (5 ≤ age → age < 10 → selectWindow age maxHist recent5 = recent5) ∧
    (10 ≤ age → selectWindow age maxHist recent5 = recent5) ∧
    (5 ≤ age → selectWindow age maxHist recent5 = recent5) := by
  unfold selectWindow
  refine ⟨fun h => by rw [if_pos h], fun h5 h10 => ?_, fun h10 => ?_, fun h5 => ?_⟩
  · rw [if_neg (by linarith), if_pos h10]
  · rw [if_neg (by linarith)]
    split_ifs <;> rfl
  · rw [if_neg (by linarith)]
    split_ifs <;> rfl

/-- C3 witness: a twelve-year-old company gets the five-year window. -/
theorem selectWindow_policy_witness : selectWindow 12 [1] [2] = [2] :=
  (selectWindow_policy 12 [1] [2]).2.2.1 (by norm_num)

/-- C4: for every holding period of at least one year, `yearly_values` has
indices `0..P`, starts at the initial amount, follows `initial * (1 + g) ^ k`
at every later index, `nominal_final` is its last entry (index `P`), and
`real_final` deflates it by the fixed 2.5 percent inflation rate. -/
theorem yearlyValues_projection (i g : ℝ) (P : ℕ) (hP : 1 ≤ P) :
    (yearlyValues i g P).length = P + 1 ∧
    (yearlyValues i g P).getD 0 0 = i ∧
    (∀ k, 1 ≤ k → k ≤ P → (yearlyValues i g P).getD k 0 = i * (1 + g) ^ k) ∧
    nominalFinal i g P = (yearlyValues i g P).getD P 0 ∧
    realFinal i g P = nominalFinal i g P / (1 + 0.025) ^ P := by
  refine ⟨yearlyValues_length i g P, by simp [yearlyValues],
    fun k _ h2 => yearlyValues_getD i g P k h2, ?_, rfl⟩
  rw [nominalFinal, getLastD_eq_getD_of_length _ P (yearlyValues_length i g P)]

/-- C4 witness: initial amount 100, growth rate 1, holding period 2. -/
theorem yearlyValues_projection_witness :
    (yearlyValues 100 1 2).length = 2 + 1 ∧
    (yearlyValues 100 1 2).getD 0 0 = 100 ∧
    (∀ k, 1 ≤ k → k ≤ 2 → (yearlyValues 100 1 2).getD k 0 = 100 * (1 + 1) ^ k) ∧
    nominalFinal 100 1 2 = (yearlyValues 100 1 2).getD 2 0 ∧
    realFinal 100 1 2 = nominalFinal 100 1 2 / (1 + 0.025) ^ 2 :=
  yearlyValues_projection 100 1 2 (by decide)

/-- C5: for every non-empty record set, the three totals are the element-wise
sums of the records' fields, the portfolio CAGR is the dollar-weighted
`(total_nominal / total_initial) ^ (1 / holding_period) - 1`, the average
stock CAGR is the arithmetic mean of the individual rates, and the summary
exposes the two rates separately. -/
theorem summary_aggregation (recs : List ProjRecord) (P : ℕ) (hne : recs ≠ []) :
    totalNominal recs = (recs.map (fun r => r.nominal_final)).sum ∧
    totalInitial recs = (recs.map (fun r => r.initial)).sum ∧
    totalReal recs = (recs.map (fun r => r.real_final)).sum ∧
    portfolioCagr recs P
      = (totalNominal recs / totalInitial recs) ^ ((1 : ℝ) / (P : ℝ)) - 1 ∧
    averageStockCagr recs = (recs.map (fun r => r.cagr)).sum / (recs.length : ℝ) ∧
    (mkSummary recs P).portfolio_cagr = portfolioCagr recs P ∧
    (mkSummary recs P).average_stock_cagr = averageStockCagr recs :=
  ⟨rfl, rfl, rfl, rfl, rfl, rfl, rfl⟩

/-- C5 witness: a one-record set. -/
theorem summary_aggregation_witness :
    totalNominal [mkProjection "A" 1 0 1]
      = ([mkProjection "A" 1 0 1].map (fun r => r.nominal_final)).sum ∧
    totalInitial [mkProjection "A" 1 0 1]
      = ([mkProjection "A" 1 0 1].map (fun r => r.initial)).sum ∧
    totalReal [mkProjection "A" 1 0 1]
      = ([mkProjection "A" 1 0 1].map (fun r => r.real_final)).sum ∧
    portfolioCagr [mkProjection "A" 1 0 1] 1
      = (totalNominal [mkProjection "A" 1 0 1] / totalInitial [mkProjection "A" 1 0 1])
          ^ ((1 : ℝ) / ((1 : ℕ) : ℝ)) - 1 ∧
    averageStockCagr [mkProjection "A" 1 0 1]
      = ([mkProjection "A" 1 0 1].map (fun r => r.cagr)).sum
          / (([mkProjection "A" 1 0 1] : List ProjRecord).length : ℝ) ∧
    (mkSummary [mkProjection "A" 1 0 1] 1).portfolio_cagr
      = portfolioCagr [mkProjection "A" 1 0 1] 1 ∧
    (mkSummary [mkProjection "A" 1 0 1] 1).average_stock_cagr
      = averageStockCagr [mkProjection "A" 1 0 1] :=
  summary_aggregation [mkProjection "A" 1 0 1] 1 (by simp)

/-- C8 counterexample: the degenerate two-point history `[1, 0]` passes the
length guard and the finiteness guard, so its security is included with
growth rate `-1 < 0` and positive initial amount `1`; but its yearly values
`[1, 0, 0]` are not strictly decreasing. -/
theorem yearlyValues_monotone_counterexample :
    (projectAll 2 [("X", 1, [1, 0])]).1
        = [mkProjection "X" 1 (capCagr (rawCagr [1, 0])) 2] ∧
    0 < (mkProjection "X" 1 (capCagr (rawCagr [1, 0])) 2).initial ∧
    (mkProjection "X" 1 (capCagr (rawCagr [1, 0])) 2).cagr < 0 ∧
    ¬ ((mkProjection "X" 1 (capCagr (rawCagr [1, 0])) 2).yearly_values.getD 2 0
        < (mkProjection "X" 1 (capCagr (rawCagr [1, 0])) 2).yearly_values.getD 1 0) := by
  have hdiv : lastClose [1, 0] / firstClose [1, 0] = 0 := by
    norm_num [lastClose, firstClose]
  have hraw : rawCagr [1, 0] = -1 := by
    unfold rawCagr
    rw [hdiv, Real.zero_rpow (by norm_num [yearsOfData])]
    norm_num
  have hcap : capCagr (rawCagr [1, 0]) = -1 := by
    rw [hraw]
    unfold capCagr MAX_CAGR
    rw [if_neg (by norm_num)]
  refine ⟨rfl, by norm_num [mkProjection], ?_, ?_⟩
  · show capCagr (rawCagr [1, 0]) < 0
    rw [hcap]; norm_num
  · show ¬ ((yearlyValues 1 (capCagr (rawCagr [1, 0])) 2).getD 2 0
        < (yearlyValues 1 (capCagr (rawCagr [1, 0])) 2).getD 1 0)
    rw [hcap, yearlyValues_getD 1 (-1) 2 2 le_rfl, yearlyValues_getD 1 (-1) 2 1 (by omega)]
    norm_num

/-- C8 amended: for every positive initial amount, yearly values are strictly
increasing when the growth rate is positive, strictly decreasing when the
growth rate lies strictly between -1 and 0 (every rate computed from a
window with positive prices does), and constant at the initial amount when
the rate is zero.  A rate of exactly -1 (a last close of zero) defeats
strict decrease, as the counterexample shows. -/
theorem yearlyValues_monotone_amended (i g : ℝ) (P : ℕ) (hi : 0 < i) :
    (0 < g → ∀ k, k < P →
      (yearlyValues i g P).getD k 0 < (yearlyValues i g P).getD (k + 1) 0) ∧
    (-1 < g → g < 0 → ∀ k, k < P →
      (yearlyValues i g P).getD (k + 1) 0 < (yearlyValues i g P).getD k 0) ∧
    (g = 0 → ∀ k, k ≤ P → (yearlyValues i g P).getD k 0 = i) := by
  refine ⟨fun hg k hk => ?_, fun hg1 hg2 k hk => ?_, fun hg k hk => ?_⟩
  · rw [yearlyValues_getD i g P k (by omega), yearlyValues_getD i g P (k + 1) (by omega)]
    exact mul_lt_mul_of_pos_left
      (pow_lt_pow_right₀ (by linarith) (Nat.lt_succ_self k)) hi
  · rw [yearlyValues_getD i g P k (by omega), yearlyValues_getD i g P (k + 1) (by omega)]
    exact mul_lt_mul_of_pos_left
      (pow_lt_pow_right_of_lt_one₀ (by linarith) (by linarith) (Nat.lt_succ_self k)) hi
  · subst hg
    rw [yearlyValues_getD i 0 P k hk]
    norm_num

/-- C8 amended witness: initial amount 1, growth rate 1, holding period 1. -/
theorem yearlyValues_monotone_amended_witness :
    (0 < (1 : ℝ) → ∀ k, k < 1 →
      (yearlyValues 1 1 1).getD k 0 < (yearlyValues 1 1 1).getD (k + 1) 0) ∧
    (-1 < (1 : ℝ) → (1 : ℝ) < 0 → ∀ k, k < 1 →
      (yearlyValues 1 1 1).getD (k + 1) 0 < (yearlyValues 1 1 1).getD k 0) ∧
    ((1 : ℝ) = 0 → ∀ k, k ≤ 1 → (yearlyValues 1 1 1).getD k 0 = 1) :=
  yearlyValues_monotone_amended 1 1 1 one_pos

lemma projectAll_nil (P : ℕ) : projectAll P [] = ([], []) := rfl

lemma projectAll_cons (P : ℕ) (x : String × ℝ × List ℝ) (xs : List (String × ℝ × List ℝ)) :
    projectAll P (x :: xs) = projStep P x (projectAll P xs) :=
  rfl

lemma projectAll_warnings_length (P : ℕ) (inputs : List (String × ℝ × List ℝ)) :
    (projectAll P inputs).2.length
      = (inputs.filter fun x => x.2.2.length < 2).length := by
  induction inputs with
  | nil => rfl
  | cons x xs ih =>
    rw [projectAll_cons]
    unfold projStep
    by_cases h : x.2.2.length < 2
    · rw [if_pos h]
      simp [List.filter_cons, h, ih]
    · rw [if_neg h]
      simp [List.filter_cons, h, ih]

lemma projectAll_records_length (P : ℕ) (inputs : List (String × ℝ × List ℝ)) :
    (projectAll P inputs).1.length
      = (inputs.filter fun x => 2 ≤ x.2.2.length).length := by
  induction inputs with
  | nil => rfl
  | cons x xs ih =>
    rw [projectAll_cons]
    unfold projStep
    by_cases h : x.2.2.length < 2
    · rw [if_pos h]
      have h' : ¬ 2 ≤ x.2.2.length := by omega
      simp [List.filter_cons, h', ih]
    · rw [if_neg h]
      have h' : 2 ≤ x.2.2.length := by omega
      simp [List.filter_cons, h', ih]

lemma runProjector_of_empty (P : ℕ) (inputs : List (String × ℝ × List ℝ))
    (h : (projectAll P inputs).1 = []) :
    runProjector P inputs = Except.error "No valid stock data could be retrieved" := by
  unfold runProjector
  rw [h]

/-- C6: every security whose resolved window has fewer than two points is
excluded with exactly one warning while the run continues over the rest, and
whenever every requested security is excluded the run fails with the
no-valid-projections error instead of producing a partial summary. -/
theorem insufficient_data_exclusion (P : ℕ) (inputs : List (String × ℝ × List ℝ)) :
    (projectAll P inputs).2.length
      = (inputs.filter fun x => x.2.2.length < 2).length ∧
    (projectAll P inputs).1.length
      = (inputs.filter fun x => 2 ≤ x.2.2.length).length ∧
    ((∀ x ∈ inputs, x.2.2.length < 2) →
      runProjector P inputs = Except.error "No valid stock data could be retrieved") ∧
    ((∃ x ∈ inputs, 2 ≤ x.2.2.length) →
      ∃ out, runProjector P inputs = Except.ok out) := by
  refine ⟨projectAll_warnings_length P inputs, projectAll_records_length P inputs,
    fun hall => ?_, fun hsome => ?_⟩
  · apply runProjector_of_empty
    rw [← List.length_eq_zero, projectAll_records_length]
    rw [List.length_eq_zero, List.filter_eq_nil_iff]
    intro x hx
    have := hall x hx
    simp only [decide_eq_true_eq]
    omega
  · obtain ⟨x, hx, hge⟩ := hsome
    have hmem : x ∈ inputs.filter fun x => 2 ≤ x.2.2.length :=
      List.mem_filter.mpr ⟨hx, by simpa using hge⟩
    have hpos : 0 < (projectAll P inputs).1.length := by
      rw [projectAll_records_length]
      exact List.length_pos.mpr (List.ne_nil_of_mem hmem)
    rcases hrec : (projectAll P inputs).1 with _ | ⟨r, rs⟩
    · rw [hrec] at hpos
      simp at hpos
    · refine ⟨(r :: rs, mkSummary (r :: rs) P), ?_⟩
      unfold runProjector
      rw [hrec]

/-- C6 witness: a portfolio of one security with a one-point window fails with
the no-valid-projections error. -/
theorem insufficient_data_exclusion_witness :
    runProjector 1 [("A", 1, [42])]
      = Except.error "No valid stock data could be retrieved" :=
  (insufficient_data_exclusion 1 [("A", 1, [42])]).2.2.1 (by simp)

lemma projectAll_mem_shape (P : ℕ) (inputs : List (String × ℝ × List ℝ)) :
    ∀ r ∈ (projectAll P inputs).1, ∃ t i h, (t, i, h) ∈ inputs ∧
      r = mkProjection t i (capCagr (rawCagr h)) P := by
  induction inputs with
  | nil =>
    intro r hr
    simp [projectAll] at hr
  | cons x xs ih =>
    intro r hr
    rw [projectAll_cons] at hr
    unfold projStep at hr
    by_cases h : x.2.2.length < 2
    · rw [if_pos h] at hr
      obtain ⟨t, i, hh, hmem, heq⟩ := ih r hr
      exact ⟨t, i, hh, List.mem_cons_of_mem x hmem, heq⟩
    · rw [if_neg h] at hr
      rcases List.mem_cons.mp hr with heq | hmem
      · exact ⟨x.1, x.2.1, x.2.2, List.mem_cons_self x xs, heq⟩
      · obtain ⟨t, i, hh, hmem', heq⟩ := ih r hmem
        exact ⟨t, i, hh, List.mem_cons_of_mem x hmem', heq⟩

lemma mkProjection_yearly_length (t : String) (i g : ℝ) (P : ℕ) :
    (mkProjection t i g P).yearly_values.length = P + 1 :=
  yearlyValues_length i g P

lemma mkProjection_getD_zero (t : String) (i g : ℝ) (P : ℕ) :
    (mkProjection t i g P).yearly_values.getD 0 0 = (mkProjection t i g P).initial := by
  simp [mkProjection, yearlyValues]

lemma mkProjection_getD_last (t : String) (i g : ℝ) (P : ℕ) :
    (mkProjection t i g P).yearly_values.getD P 0 = (mkProjection t i g P).nominal_final := by
  show (yearlyValues i g P).getD P 0 = nominalFinal i g P
  rw [yearlyValues_getD i g P P le_rfl, nominalFinal_eq]

lemma getD_zipWith_add (a b : List ℝ) (k : ℕ) (ha : k < a.length) (hb : k < b.length) :
    (a.zipWith (fun x y => x + y) b).getD k 0 = a.getD k 0 + b.getD k 0 := by
  induction a generalizing b k with
  | nil => simp at ha
  | cons x xs ih =>
    cases b with
    | nil => simp at hb
    | cons y ys =>
      cases k with
      | zero => simp
      | succ k =>
        simp only [List.zipWith_cons_cons, List.getD_cons_succ]
        exact ih ys k (by simpa using ha) (by simpa using hb)

lemma totalYearly_fold (P k : ℕ) (hk : k ≤ P) :
    ∀ recs : List ProjRecord, (∀ r ∈ recs, r.yearly_values.length = P + 1) →
    ∀ acc : List ℝ, acc.length = P + 1 →
      (recs.foldl (fun acc r => acc.zipWith (fun a b => a + b) r.yearly_values) acc).getD k 0
        = acc.getD k 0 + (recs.map fun r => r.yearly_values.getD k 0).sum := by
  intro recs
  induction recs with
  | nil =>
    intro _ acc _
    simp
  | cons r rs ih =>
    intro hlen acc hacc
    have hr := hlen r (List.mem_cons_self r rs)
    have hlen' : ∀ s ∈ rs, s.yearly_values.length = P + 1 :=
      fun s hs => hlen s (List.mem_cons_of_mem r hs)
    have hacc' : (acc.zipWith (fun a b => a + b) r.yearly_values).length = P + 1 := by
      simp [List.length_zipWith, hacc, hr]
    simp only [List.foldl_cons, List.map_cons, List.sum_cons]
    rw [ih hlen' _ hacc', getD_zipWith_add _ _ k (by omega) (by omega)]
    ring

lemma totalYearlyValues_getD (recs : List ProjRecord) (P k : ℕ) (hk : k ≤ P)
    (hlen : ∀ r ∈ recs, r.yearly_values.length = P + 1) :
    (totalYearlyValues recs P).getD k 0
      = (recs.map fun r => r.yearly_values.getD k 0).sum := by
  unfold totalYearlyValues
  rw [totalYearly_fold P k hk recs hlen _ (by simp)]
  simp [List.getD_eq_getElem?_getD, List.getElem?_replicate, Nat.lt_succ_of_le hk]

lemma runProjector_ok_elim (P : ℕ) (inputs : List (String × ℝ × List ℝ))
    (recs : List ProjRecord) (s : PortfolioSummary)
    (hrun : runProjector P inputs = Except.ok (recs, s)) :
    recs = (projectAll P inputs).1 ∧ s = mkSummary recs P ∧ recs ≠ [] := by
  unfold runProjector at hrun
  rcases hrec : (projectAll P inputs).1 with _ | ⟨r, rs⟩
  · rw [hrec] at hrun
    simp at hrun
  · rw [hrec] at hrun
    simp only [Except.ok.injEq, Prod.mk.injEq] at hrun
    obtain ⟨h1, h2⟩ := hrun
    subst h1
    exact ⟨rfl, h2.symm, by simp⟩

/-- C9: for every run that produces a summary, the combined yearly series is
the index-wise sum of the included securities' yearly values, its entry at
index 0 is the reported total initial amount and its entry at the holding
period is the reported total nominal value. -/
theorem total_yearly_values_endpoints (P : ℕ) (inputs : List (String × ℝ × List ℝ))
    (recs : List ProjRecord) (s : PortfolioSummary)
    (hrun : runProjector P inputs = Except.ok (recs, s)) :
    (∀ k, k ≤ P → s.total_yearly_values.getD k 0
      = (recs.map fun r => r.yearly_values.getD k 0).sum) ∧
    s.total_yearly_values.getD 0 0 = s.total_initial ∧
    s.total_yearly_values.getD P 0 = s.total_nominal := by
  obtain ⟨hrecs, hs, -⟩ := runProjector_ok_elim P inputs recs s hrun
  subst hs
  have hshape : ∀ r ∈ recs, ∃ t i h, (t, i, h) ∈ inputs ∧
      r = mkProjection t i (capCagr (rawCagr h)) P := by
    rw [hrecs]
    exact projectAll_mem_shape P inputs
  have hlen : ∀ r ∈ recs, r.yearly_values.length = P + 1 := by
    intro r hr
    obtain ⟨t, i, h, -, heq⟩ := hshape r hr
    rw [heq]
    exact mkProjection_yearly_length t i _ P
  refine ⟨fun k hk => totalYearlyValues_getD recs P k hk hlen, ?_, ?_⟩
  · show (totalYearlyValues recs P).getD 0 0 = totalInitial recs
    rw [totalYearlyValues_getD recs P 0 (Nat.zero_le P) hlen]
    unfold totalInitial
    congr 1
    apply List.map_congr_left
    intro r hr
    obtain ⟨t, i, h, -, heq⟩ := hshape r hr
    rw [heq]
    exact mkProjection_getD_zero t i _ P
  · show (totalYearlyValues recs P).getD P 0 = totalNominal recs
    rw [totalYearlyValues_getD recs P P le_rfl hlen]
    unfold totalNominal
    congr 1
    apply List.map_congr_left
    intro r hr
    obtain ⟨t, i, h, -, heq⟩ := hshape r hr
    rw [heq]
    exact mkProjection_getD_last t i _ P

/-- C9 witness: one included security with window `[1, 1]`, holding period 1. -/
theorem total_yearly_values_endpoints_witness :
    (∀ k, k ≤ 1 →
      (mkSummary [mkProjection "A" 1 (capCagr (rawCagr [1, 1])) 1] 1).total_yearly_values.getD k 0
        = (([mkProjection "A" 1 (capCagr (rawCagr [1, 1])) 1]).map
            fun r => r.yearly_values.getD k 0).sum) ∧
    (mkSummary [mkProjection "A" 1 (capCagr (rawCagr [1, 1])) 1] 1).total_yearly_values.getD 0 0
      = (mkSummary [mkProjection "A" 1 (capCagr (rawCagr [1, 1])) 1] 1).total_initial ∧
    (mkSummary [mkProjection "A" 1 (capCagr (rawCagr [1, 1])) 1] 1).total_yearly_values.getD 1 0
      = (mkSummary [mkProjection "A" 1 (capCagr (rawCagr [1, 1])) 1] 1).total_nominal :=
  total_yearly_values_endpoints 1 [("A", 1, [1, 1])]
    [mkProjection "A" 1 (capCagr (rawCagr [1, 1])) 1]
    (mkSummary [mkProjection "A" 1 (capCagr (rawCagr [1, 1])) 1] 1) rfl

/-- C10: the summary-step divisions and the fractional exponent are
well-defined on every run that reaches them: the record set is non-empty (so
the record count is a nonzero divisor), every accepted initial amount is
positive so the total initial investment is positive, and the validated
holding period is a nonzero exponent denominator. -/
theorem summary_divisions_well_defined (P : ℕ) (hP : 1 ≤ P)
    (inputs : List (String × ℝ × List ℝ)) (hpos : ∀ x ∈ inputs, 0 < x.2.1)
    (recs : List ProjRecord) (s : PortfolioSummary)
    (hrun : runProjector P inputs = Except.ok (recs, s)) :
    recs ≠ [] ∧ ((recs.length : ℝ)) ≠ 0 ∧ 0 < totalInitial recs ∧ ((P : ℝ)) ≠ 0 := by
  obtain ⟨hrecs, -, hne⟩ := runProjector_ok_elim P inputs recs s hrun
  have hinit : ∀ r ∈ recs, 0 < r.initial := by
    intro r hr
    rw [hrecs] at hr
    obtain ⟨t, i, h, hmem, heq⟩ := projectAll_mem_shape P inputs r hr
    have := hpos (t, i, h) hmem
    rw [heq]
    exact this
  refine ⟨hne, ?_, ?_, ?_⟩
  · have : recs.length ≠ 0 := by
      simpa [List.length_eq_zero] using hne
    exact_mod_cast this
  · unfold totalInitial
    apply List.sum_pos
    · intro a ha
      obtain ⟨r, hr, heq⟩ := List.mem_map.mp ha
      rw [← heq]
      exact hinit r hr
    · simpa using hne
  · have : P ≠ 0 := by omega
    exact_mod_cast this

/-- C10 witness: one security with positive amount and a two-point window. -/
theorem summary_divisions_well_defined_witness :
    ([mkProjection "A" 1 (capCagr (rawCagr [1, 1])) 1] : List ProjRecord) ≠ [] ∧
    ((([mkProjection "A" 1 (capCagr (rawCagr [1, 1])) 1] : List ProjRecord).length : ℝ)) ≠ 0 ∧
    0 < totalInitial [mkProjection "A" 1 (capCagr (rawCagr [1, 1])) 1] ∧
    (((1 : ℕ) : ℝ)) ≠ 0 :=
  summary_divisions_well_defined 1 le_rfl [("A", 1, [1, 1])] (by simp)
    [mkProjection "A" 1 (capCagr (rawCagr [1, 1])) 1]
    (mkSummary [mkProjection "A" 1 (capCagr (rawCagr [1, 1])) 1] 1) rfl

end InvestmentAnalyzer
